import Mathlib

/-!
Verification of the StockCompSystem equity engine (Django backend).

The development shallowly embeds the vesting / valuation / validation code of
`backend/equity/models.py`, `backend/equity/serializers.py` and
`backend/equity/views.py`.  Calendar dates are embedded as proleptic Gregorian
`(year, month, day)` triples with the same ordering and arithmetic that Python's
`datetime.date` and `dateutil.relativedelta` provide; machine integers are `Nat`
or `Int`; Python float arithmetic on integer operands (`int(a * b / c)`) is
modelled by exact integer floor division, matching the intended real-number
semantics of the source.
-/

namespace StockComp

/-- A calendar date, as Python `datetime.date`: a `(year, month, day)` triple. -/
structure Date where
  year : Nat
  month : Nat
  day : Nat
deriving DecidableEq, Repr

/-- Gregorian leap-year test (Python `calendar.isleap`). -/
def isLeap (y : Nat) : Bool :=
  (y % 4 == 0 && y % 100 != 0) || (y % 400 == 0)

/-- Number of days in month `m` of year `y` (Python `calendar.monthrange`). -/
def daysInMonth (y m : Nat) : Nat :=
  if m = 2 then (if isLeap y then 29 else 28)
  else if m = 4 ∨ m = 6 ∨ m = 9 ∨ m = 11 then 30
  else 31

/-- A structurally valid Gregorian date. -/
def Date.Valid (d : Date) : Prop :=
  1 ≤ d.year ∧ 1 ≤ d.month ∧ d.month ≤ 12 ∧ 1 ≤ d.day ∧ d.day ≤ daysInMonth d.year d.month

instance (d : Date) : Decidable d.Valid := by
  unfold Date.Valid; infer_instance

/-- Date comparison, as Python compares `datetime.date` values:
lexicographically on `(year, month, day)`. -/
def Date.le (a b : Date) : Prop :=
  a.year < b.year ∨ (a.year = b.year ∧
    (a.month < b.month ∨ (a.month = b.month ∧ a.day ≤ b.day)))

/-- Strict date comparison, lexicographic on `(year, month, day)`. -/
def Date.lt (a b : Date) : Prop :=
  a.year < b.year ∨ (a.year = b.year ∧
    (a.month < b.month ∨ (a.month = b.month ∧ a.day < b.day)))

instance (a b : Date) : Decidable (Date.le a b) := by
  unfold Date.le; infer_instance

instance (a b : Date) : Decidable (Date.lt a b) := by
  unfold Date.lt; infer_instance

/-- Python `min(a, b)` on dates. -/
def Date.min (a b : Date) : Date := if Date.le a b then a else b

theorem Date.le_refl (a : Date) : Date.le a a := by
  unfold Date.le; omega

theorem Date.le_trans {a b c : Date} (h1 : Date.le a b) (h2 : Date.le b c) :
    Date.le a c := by
  unfold Date.le at *; omega

theorem Date.le_antisymm {a b : Date} (h1 : Date.le a b) (h2 : Date.le b a) :
    a = b := by
  obtain ⟨y1, m1, d1⟩ := a
  obtain ⟨y2, m2, d2⟩ := b
  unfold Date.le at *
  dsimp only at *
  simp only [Date.mk.injEq]
  omega

theorem Date.not_le {a b : Date} : ¬ Date.le a b ↔ Date.lt b a := by
  unfold Date.le Date.lt; omega

theorem Date.not_lt {a b : Date} : ¬ Date.lt a b ↔ Date.le b a := by
  unfold Date.le Date.lt; omega

theorem Date.lt_of_lt_of_le {a b c : Date} (h1 : Date.lt a b) (h2 : Date.le b c) :
    Date.lt a c := by
  unfold Date.le Date.lt at *; omega

theorem Date.le_of_lt {a b : Date} (h : Date.lt a b) : Date.le a b := by
  unfold Date.le Date.lt at *; omega

theorem Date.min_le_min_left {a b c : Date} (h : Date.le a b) :
    Date.le (Date.min a c) (Date.min b c) := by
  unfold Date.min
  split <;> split
  · exact h
  · assumption
  · exact Date.le_trans (Date.le_of_lt (Date.not_le.mp (by assumption))) h
  · exact Date.le_refl c

theorem Date.min_eq_right {a b : Date} (h : Date.le b a) : Date.min a b = b := by
  unfold Date.min
  split
  · exact Date.le_antisymm (by assumption) h
  · rfl

theorem Date.min_valid {a b : Date} (ha : a.Valid) (hb : b.Valid) :
    (Date.min a b).Valid := by
  unfold Date.min; split <;> assumption

/-- Leap days in years `1 .. y-1`, the correction term of the proleptic
Gregorian day number (as in Python `date.toordinal`). -/
def leapsBefore (y : Nat) : Nat :=
  (y - 1) / 4 + (y - 1) / 400 - (y - 1) / 100

/-- Days of year `y` that precede month `m` (Python `date.toordinal` month table). -/
def cumDaysBeforeMonth (y m : Nat) : Nat :=
  (match m with
   | 1 => 0 | 2 => 31 | 3 => 59 | 4 => 90 | 5 => 120 | 6 => 151 | 7 => 181
   | 8 => 212 | 9 => 243 | 10 => 273 | 11 => 304 | 12 => 334 | _ => 0)
  + (if 3 ≤ m ∧ m ≤ 12 ∧ isLeap y then 1 else 0)

/-- Number of days in year `y`. -/
def daysInYear (y : Nat) : Nat := 365 + (if isLeap y then 1 else 0)

/-- Proleptic Gregorian day number of a date (Python `date.toordinal`);
day 1 is January 1 of year 1. -/
def ordinalN (d : Date) : Nat :=
  365 * (d.year - 1) + leapsBefore d.year + cumDaysBeforeMonth d.year d.month + d.day

theorem cumDaysBeforeMonth_lt (y : Nat) {m1 m2 : Nat} (h1 : 1 ≤ m1) (hm : m1 < m2)
    (h2 : m2 ≤ 12) {d : Nat} (hd : d ≤ daysInMonth y m1) :
    cumDaysBeforeMonth y m1 + d < cumDaysBeforeMonth y m2 + 1 := by
  have hub : m1 ≤ 11 := by omega
  cases hl : isLeap y <;>
    (interval_cases m1 <;> interval_cases m2 <;>
      simp_all [cumDaysBeforeMonth, daysInMonth] <;> omega)

theorem cumDaysBeforeMonth_day_le (y : Nat) {m : Nat} (h1 : 1 ≤ m) (h2 : m ≤ 12)
    {d : Nat} (hd : d ≤ daysInMonth y m) :
    cumDaysBeforeMonth y m + d ≤ daysInYear y := by
  cases hl : isLeap y <;>
    (interval_cases m <;> simp_all [cumDaysBeforeMonth, daysInMonth, daysInYear] <;> omega)

theorem leapBit (y : Nat) : (if isLeap y then 1 else 0) =
    (if y % 4 = 0 ∧ ¬ y % 100 = 0 ∨ y % 400 = 0 then 1 else 0) := by
  unfold isLeap
  by_cases c4 : y % 4 = 0 <;> by_cases c100 : y % 100 = 0 <;> by_cases c400 : y % 400 = 0 <;>
    simp [c4, c100, c400]

theorem leapsBefore_succ {y : Nat} (hy : 1 ≤ y) :
    leapsBefore (y + 1) = leapsBefore y + (if isLeap y then 1 else 0) := by
  unfold leapsBefore
  rw [leapBit]
  obtain ⟨z, rfl⟩ : ∃ z, y = z + 1 := ⟨y - 1, by omega⟩
  simp only [Nat.add_sub_cancel]
  have h4 := Nat.succ_div z 4
  have h100 := Nat.succ_div z 100
  have h400 := Nat.succ_div z 400
  simp only [Nat.dvd_iff_mod_eq_zero] at h4 h100 h400
  have hle4 : z / 100 ≤ z / 4 := Nat.div_le_div_left (by norm_num) (by norm_num)
  by_cases c4 : (z + 1) % 4 = 0 <;> by_cases c100 : (z + 1) % 100 = 0 <;>
    by_cases c400 : (z + 1) % 400 = 0 <;>
    simp only [c4, c100, c400, if_true, if_false] at h4 h100 h400 ⊢ <;>
    simp_all <;> omega

/-- `365 * (y-1) + leapsBefore y`, the day count of all years before `y`. -/
def daysBeforeYear (y : Nat) : Nat := 365 * (y - 1) + leapsBefore y

theorem daysBeforeYear_succ {y : Nat} (hy : 1 ≤ y) :
    daysBeforeYear (y + 1) = daysBeforeYear y + daysInYear y := by
  unfold daysBeforeYear daysInYear
  rw [leapsBefore_succ hy]
  have : y + 1 - 1 = (y - 1) + 1 := by omega
  rw [this]
  omega

theorem daysBeforeYear_mono {y1 y2 : Nat} (h1 : 1 ≤ y1) (h : y1 ≤ y2) :
    daysBeforeYear y1 ≤ daysBeforeYear y2 := by
  induction y2, h using Nat.le_induction with
  | base => exact Nat.le_refl _
  | succ n hn ih =>
    calc daysBeforeYear y1 ≤ daysBeforeYear n := ih
    _ ≤ daysBeforeYear n + daysInYear n := Nat.le_add_right _ _
    _ = daysBeforeYear (n + 1) := (daysBeforeYear_succ (by omega)).symm

theorem ordinalN_lt_of_year_lt {d1 d2 : Date} (h1 : d1.Valid) (h2 : d2.Valid)
    (hy : d1.year < d2.year) : ordinalN d1 < ordinalN d2 := by
  obtain ⟨hy1, hm1a, hm1b, hd1a, hd1b⟩ := h1
  obtain ⟨hy2, hm2a, hm2b, hd2a, hd2b⟩ := h2
  have hub : ordinalN d1 ≤ daysBeforeYear d1.year + daysInYear d1.year := by
    unfold ordinalN daysBeforeYear
    have := cumDaysBeforeMonth_day_le d1.year hm1a hm1b hd1b
    omega
  have hlb : daysBeforeYear d2.year + 1 ≤ ordinalN d2 := by
    unfold ordinalN daysBeforeYear
    omega
  have hstep : daysBeforeYear d1.year + daysInYear d1.year = daysBeforeYear (d1.year + 1) :=
    (daysBeforeYear_succ hy1).symm
  have hmono : daysBeforeYear (d1.year + 1) ≤ daysBeforeYear d2.year :=
    daysBeforeYear_mono (by omega) (by omega)
  omega

theorem ordinalN_strictMono {d1 d2 : Date} (h1 : d1.Valid) (h2 : d2.Valid)
    (hlt : Date.lt d1 d2) : ordinalN d1 < ordinalN d2 := by
  rcases hlt with hy | ⟨hy, hrest⟩
  · exact ordinalN_lt_of_year_lt h1 h2 hy
  · obtain ⟨hy1, hm1a, hm1b, hd1a, hd1b⟩ := h1
    obtain ⟨hy2, hm2a, hm2b, hd2a, hd2b⟩ := h2
    rcases hrest with hm | ⟨hm, hd⟩
    · have := cumDaysBeforeMonth_lt d1.year hm1a (by omega : d1.month < d2.month)
        hm2b hd1b
      unfold ordinalN
      rw [← hy] at *
      omega
    · unfold ordinalN
      rw [← hy, ← hm] at *
      omega

theorem ordinalN_le_iff {d1 d2 : Date} (h1 : d1.Valid) (h2 : d2.Valid) :
    Date.le d1 d2 ↔ ordinalN d1 ≤ ordinalN d2 := by
  constructor
  · intro h
    by_cases heq : d1 = d2
    · subst heq; exact Nat.le_refl _
    · have hlt : Date.lt d1 d2 := by
        unfold Date.le at h; unfold Date.lt
        obtain ⟨y1, m1, dd1⟩ := d1
        obtain ⟨y2, m2, dd2⟩ := d2
        simp only [Date.mk.injEq] at heq
        dsimp only at *
        omega
      exact Nat.le_of_lt (ordinalN_strictMono h1 h2 hlt)
  · intro h
    by_contra hc
    have := ordinalN_strictMono h2 h1 (Date.not_le.mp hc)
    omega

theorem ordinalN_lt_iff {d1 d2 : Date} (h1 : d1.Valid) (h2 : d2.Valid) :
    Date.lt d1 d2 ↔ ordinalN d1 < ordinalN d2 := by
  constructor
  · exact ordinalN_strictMono h1 h2
  · intro h
    by_contra hc
    have := (ordinalN_le_iff h2 h1).mp (Date.not_lt.mp hc)
    omega

/-- Zero-based month index `year * 12 + (month - 1)` of a date. -/
def monthIndex (d : Date) : Nat := d.year * 12 + (d.month - 1)

/-- `dateutil` month addition `d + relativedelta(months=k)`: advance the month
index by `k` and clamp the day to the length of the target month. -/
def addMonths (d : Date) (k : Nat) : Date :=
  let t := d.year * 12 + (d.month - 1) + k
  ⟨t / 12, t % 12 + 1, Nat.min d.day (daysInMonth (t / 12) (t % 12 + 1))⟩

theorem addMonths_valid {d : Date} (h : d.Valid) (k : Nat) : (addMonths d k).Valid := by
  obtain ⟨hy, hma, hmb, hda, hdb⟩ := h
  unfold addMonths Date.Valid
  refine ⟨?_, ?_, ?_, ?_, ?_⟩ <;> dsimp only
  · have : 12 ≤ d.year * 12 + (d.month - 1) + k := by
      have : 12 ≤ d.year * 12 := by omega
      omega
    omega
  · omega
  · omega
  · have h28 : 28 ≤ daysInMonth ((d.year * 12 + (d.month - 1) + k) / 12)
        ((d.year * 12 + (d.month - 1) + k) % 12 + 1) := by
      unfold daysInMonth
      split
      · split <;> omega
      · split <;> omega
    exact Nat.le_min.mpr ⟨hda, le_trans (by norm_num) h28⟩
  · exact Nat.min_le_right _ _

theorem monthIndex_addMonths {d : Date} (h : d.Valid) (k : Nat) :
    monthIndex (addMonths d k) = monthIndex d + k := by
  obtain ⟨hy, hma, hmb, hda, hdb⟩ := h
  unfold monthIndex addMonths
  dsimp only
  omega

theorem monthIndex_le_of_le {a b : Date} (ha : a.Valid) (hb : b.Valid)
    (h : Date.le a b) : monthIndex a ≤ monthIndex b := by
  obtain ⟨_, hma, hmb, _, _⟩ := ha
  obtain ⟨_, hmc, hmd, _, _⟩ := hb
  unfold Date.le at h
  unfold monthIndex
  rcases h with h | ⟨h, hr⟩
  · have : a.year * 12 + 12 ≤ b.year * 12 := by omega
    omega
  · omega

theorem lt_of_monthIndex_lt {a b : Date} (ha : a.Valid) (hb : b.Valid)
    (h : monthIndex a < monthIndex b) : Date.lt a b := by
  obtain ⟨_, hma, hmb, _, _⟩ := ha
  obtain ⟨_, hmc, hmd, _, _⟩ := hb
  unfold monthIndex at h
  unfold Date.lt
  by_cases hy : a.year < b.year
  · exact Or.inl hy
  · have hy2 : a.year = b.year ∨ b.year < a.year := by omega
    rcases hy2 with heq | hy2
    · exact Or.inr ⟨heq, Or.inl (by omega)⟩
    · exfalso
      have : b.year * 12 + 12 ≤ a.year * 12 := by omega
      omega

theorem addMonths_zero {d : Date} (h : d.Valid) : addMonths d 0 = d := by
  obtain ⟨hy, hma, hmb, hda, hdb⟩ := h
  unfold addMonths
  obtain ⟨y, m, dd⟩ := d
  dsimp only at *
  simp only [Date.mk.injEq]
  have ht : (y * 12 + (m - 1) + 0) = y * 12 + (m - 1) := by omega
  rw [ht]
  have hdiv : (y * 12 + (m - 1)) / 12 = y := by omega
  have hmod : (y * 12 + (m - 1)) % 12 = m - 1 := by omega
  rw [hdiv, hmod]
  refine ⟨rfl, by omega, ?_⟩
  rw [show m - 1 + 1 = m by omega]
  exact Nat.min_eq_left hdb

theorem addMonths_strictMono {d : Date} (h : d.Valid) {k1 k2 : Nat} (hk : k1 < k2) :
    Date.lt (addMonths d k1) (addMonths d k2) := by
  apply lt_of_monthIndex_lt (addMonths_valid h k1) (addMonths_valid h k2)
  rw [monthIndex_addMonths h, monthIndex_addMonths h]
  omega

theorem addMonths_le_mono {d : Date} (h : d.Valid) {k1 k2 : Nat} (hk : k1 ≤ k2) :
    Date.le (addMonths d k1) (addMonths d k2) := by
  rcases Nat.lt_or_ge k1 k2 with hlt | hge
  · exact Date.le_of_lt (addMonths_strictMono h hlt)
  · have : k1 = k2 := by omega
    subst this
    exact Date.le_refl _

/-- Whole-month count of `dateutil.relativedelta(b, a)` for `a ≤ b`
(`rd.years * 12 + rd.months`): the raw month-index difference, reduced by one
when stepping `a` forward that many months (with day clamping) overshoots `b`. -/
def wholeMonths (a b : Date) : Nat :=
  if Date.le (addMonths a (monthIndex b - monthIndex a)) b
  then monthIndex b - monthIndex a
  else monthIndex b - monthIndex a - 1

theorem wholeMonths_le_self {a b : Date} (ha : a.Valid) (hb : b.Valid)
    (hab : Date.le a b) : Date.le (addMonths a (wholeMonths a b)) b := by
  unfold wholeMonths
  split
  · assumption
  · rename_i hno
    rcases Nat.eq_zero_or_pos (monthIndex b - monthIndex a) with h0 | hpos
    · rw [h0] at hno
      rw [addMonths_zero ha] at hno
      exact absurd hab hno
    · apply Date.le_of_lt
      apply lt_of_monthIndex_lt (addMonths_valid ha _) hb
      rw [monthIndex_addMonths ha]
      have hle := monthIndex_le_of_le ha hb hab
      omega

theorem le_wholeMonths_of_addMonths_le {a b : Date} (ha : a.Valid) (hb : b.Valid)
    {k : Nat} (hk : Date.le (addMonths a k) b) : k ≤ wholeMonths a b := by
  have hmi : monthIndex a + k ≤ monthIndex b := by
    have := monthIndex_le_of_le (addMonths_valid ha k) hb hk
    rw [monthIndex_addMonths ha] at this
    exact this
  unfold wholeMonths
  split
  · omega
  · rename_i hno
    by_contra hc
    have hkraw : k = monthIndex b - monthIndex a := by omega
    rw [← hkraw] at hno
    exact hno hk

theorem wholeMonths_mono {a b c : Date} (ha : a.Valid) (hb : b.Valid) (hc : c.Valid)
    (hab : Date.le a b) (hbc : Date.le b c) :
    wholeMonths a b ≤ wholeMonths a c := by
  apply le_wholeMonths_of_addMonths_le ha hc
  exact Date.le_trans (wholeMonths_le_self ha hb hab) hbc

/-- Python `date + timedelta(days = k)`, by repeated next-day stepping. -/
def nextDay (d : Date) : Date :=
  if d.day < daysInMonth d.year d.month then ⟨d.year, d.month, d.day + 1⟩
  else if d.month < 12 then ⟨d.year, d.month + 1, 1⟩
  else ⟨d.year + 1, 1, 1⟩

/-- Python `date + timedelta(days = k)` for `k ≥ 0`. -/
def addDays (d : Date) : Nat → Date
  | 0 => d
  | k + 1 => addDays (nextDay d) k

theorem Date.lt_of_le_of_lt {a b c : Date} (h1 : Date.le a b) (h2 : Date.lt b c) :
    Date.lt a c := by
  unfold Date.le Date.lt at *; omega

/-- The `vesting_frequency` choices of `EquityGrant.VESTING_FREQUENCIES`. -/
inductive Freq where
  | daily
  | weekly
  | biweekly
  | monthly
  | yearly
deriving DecidableEq, Repr

/-- The fields of `EquityGrant` that the vesting and valuation engine reads.
`strike_price` and `purchase_price` are decimals, embedded as rationals;
`grant_date` has a non-null default in the model, so it is not optional. -/
structure Grant where
  num_shares : Nat
  iso_shares : Nat
  nqo_shares : Nat
  rsu_shares : Nat
  common_shares : Nat
  preferred_shares : Nat
  strike_price : Option ℚ
  purchase_price : Option ℚ
  grant_date : Date
  vesting_start : Option Date
  vesting_end : Option Date
  vesting_frequency : Freq
  cliff_months : Nat
deriving DecidableEq, Repr

/-- Validity of an optional date field. -/
def OptValid : Option Date → Prop
  | none => True
  | some d => d.Valid

instance : ∀ o : Option Date, Decidable (OptValid o)
  | none => isTrue trivial
  | some _ => inferInstanceAs (Decidable (Date.Valid _))

/-- A grant whose vesting dates, when present, are structurally valid dates. -/
def Grant.DatesValid (g : Grant) : Prop :=
  OptValid g.vesting_start ∧ OptValid g.vesting_end

instance (g : Grant) : Decidable g.DatesValid := by
  unfold Grant.DatesValid; infer_instance

/-- `EquityGrant._units_between(start, end, freq)`: inclusive unit count between
two dates.  `days` is `(end - start).days`, nonnegative under the guard;
MONTHLY/YEARLY use the `relativedelta` whole-month count. -/
def units_between (start e : Date) (freq : Freq) : Nat :=
  if Date.lt e start then 0
  else match freq with
    | .daily => (ordinalN e - ordinalN start) + 1
    | .weekly => (ordinalN e - ordinalN start) / 7 + 1
    | .biweekly => (ordinalN e - ordinalN start) / 14 + 1
    | .yearly => wholeMonths start e / 12 + 1
    | .monthly => wholeMonths start e + 1

/-- `EquityGrant.vested_shares(on_date)`.  Python evaluates
`int(elapsed_units * (num_shares / total_units))` in float arithmetic; the exact
integer semantics `num_shares * elapsed_units / total_units` (floor) embeds it. -/
def vested_shares (g : Grant) (on_date : Date) : Nat :=
  if 0 < g.preferred_shares then g.preferred_shares
  else match g.vesting_start, g.vesting_end with
    | some vs, some ve =>
      if g.num_shares = 0 then 0
      else if Date.lt on_date vs then 0
      else if units_between vs ve g.vesting_frequency = 0 then 0
      else
        min (g.num_shares * units_between vs (Date.min on_date ve) g.vesting_frequency
              / units_between vs ve g.vesting_frequency)
          g.num_shares
    | _, _ => 0

theorem units_between_mono {s e1 e2 : Date} (hs : s.Valid) (h1 : e1.Valid)
    (h2 : e2.Valid) (h : Date.le e1 e2) (f : Freq) :
    units_between s e1 f ≤ units_between s e2 f := by
  unfold units_between
  by_cases hc1 : Date.lt e1 s
  · rw [if_pos hc1]
    exact Nat.zero_le _
  · have hse1 : Date.le s e1 := Date.not_lt.mp hc1
    have hc2 : ¬ Date.lt e2 s := Date.not_lt.mpr (Date.le_trans hse1 h)
    rw [if_neg hc1, if_neg hc2]
    have hord : ordinalN e1 ≤ ordinalN e2 := (ordinalN_le_iff h1 h2).mp h
    have hwm : wholeMonths s e1 ≤ wholeMonths s e2 := wholeMonths_mono hs h1 h2 hse1 h
    cases f <;> dsimp only <;> omega

theorem units_between_pos {s e : Date} (h : Date.le s e) (f : Freq) :
    1 ≤ units_between s e f := by
  unfold units_between
  rw [if_neg (Date.not_lt.mpr h)]
  cases f <;> dsimp only <;> omega

/-- Claim C2: for every grant and every pair of as-of dates `d1 ≤ d2`,
`vested_shares(d1) ≤ vested_shares(d2)`: vested shares are monotonically
non-decreasing in the as-of date. -/
theorem c2_vested_shares_monotone (g : Grant) (hg : g.DatesValid)
    (d1 d2 : Date) (h1 : d1.Valid) (h2 : d2.Valid) (hle : Date.le d1 d2) :
    vested_shares g d1 ≤ vested_shares g d2 := by
  unfold vested_shares
  by_cases hp : 0 < g.preferred_shares
  · rw [if_pos hp, if_pos hp]
  · rw [if_neg hp, if_neg hp]
    cases hvs : g.vesting_start with
    | none => simp
    | some vs =>
      cases hve : g.vesting_end with
      | none => simp
      | some ve =>
        have hvsV : vs.Valid := by
          have := hg.1; rw [hvs] at this; exact this
        have hveV : ve.Valid := by
          have := hg.2; rw [hve] at this; exact this
        dsimp only
        by_cases hn : g.num_shares = 0
        · rw [if_pos hn, if_pos hn]
        · rw [if_neg hn, if_neg hn]
          by_cases hd1 : Date.lt d1 vs
          · rw [if_pos hd1]
            exact Nat.zero_le _
          · have hd2 : ¬ Date.lt d2 vs := fun hc =>
              hd1 (Date.lt_of_le_of_lt hle hc)
            rw [if_neg hd1, if_neg hd2]
            by_cases htot : units_between vs ve g.vesting_frequency = 0
            · rw [if_pos htot, if_pos htot]
            · rw [if_neg htot, if_neg htot]
              have he : units_between vs (Date.min d1 ve) g.vesting_frequency ≤
                  units_between vs (Date.min d2 ve) g.vesting_frequency :=
                units_between_mono hvsV (Date.min_valid h1 hveV)
                  (Date.min_valid h2 hveV) (Date.min_le_min_left hle) _
              have hdv : g.num_shares * units_between vs (Date.min d1 ve) g.vesting_frequency
                    / units_between vs ve g.vesting_frequency ≤
                  g.num_shares * units_between vs (Date.min d2 ve) g.vesting_frequency
                    / units_between vs ve g.vesting_frequency :=
                Nat.div_le_div_right (Nat.mul_le_mul_left _ he)
              exact min_le_min hdv (Nat.le_refl _)

/-- Witness for C2 at a concrete grant and date pair. -/
theorem c2_vested_shares_monotone_witness :
    vested_shares
      { num_shares := 100, iso_shares := 100, nqo_shares := 0, rsu_shares := 0,
        common_shares := 0, preferred_shares := 0, strike_price := some 1,
        purchase_price := none, grant_date := ⟨2024, 1, 1⟩,
        vesting_start := some ⟨2024, 1, 1⟩, vesting_end := some ⟨2025, 1, 1⟩,
        vesting_frequency := Freq.monthly, cliff_months := 0 }
      ⟨2024, 6, 1⟩ ≤
    vested_shares
      { num_shares := 100, iso_shares := 100, nqo_shares := 0, rsu_shares := 0,
        common_shares := 0, preferred_shares := 0, strike_price := some 1,
        purchase_price := none, grant_date := ⟨2024, 1, 1⟩,
        vesting_start := some ⟨2024, 1, 1⟩, vesting_end := some ⟨2025, 1, 1⟩,
        vesting_frequency := Freq.monthly, cliff_months := 0 }
      ⟨2024, 9, 1⟩ :=
  c2_vested_shares_monotone _ (by decide) _ _ (by decide) (by decide) (by decide)

/-- Under exact integer arithmetic — the intended semantics of
`int(elapsed_units * (num_shares / total_units))` — a non-preferred grant with
both vesting dates and positive `num_shares` is fully vested at every as-of
date on or after `vesting_end`: elapsed equals total there and
`floor(num * total / total) = num`.  The program's IEEE-double evaluation can
fall short of this (see the full-vesting bug theorem below). -/
theorem vested_shares_full_at_end_exact (g : Grant) (vs ve : Date)
    (hvs : g.vesting_start = some vs) (hve : g.vesting_end = some ve)
    (hp : g.preferred_shares = 0)
    (hn : 0 < g.num_shares) (hse : Date.le vs ve)
    (d : Date) (hd : Date.le ve d) :
    vested_shares g d = g.num_shares := by
  unfold vested_shares
  rw [if_neg (by omega), hvs, hve]
  dsimp only
  rw [if_neg (by omega)]
  have hnd : ¬ Date.lt d vs := Date.not_lt.mpr (Date.le_trans hse hd)
  rw [if_neg hnd]
  have htotpos := units_between_pos hse g.vesting_frequency
  rw [if_neg (by omega)]
  rw [Date.min_eq_right hd]
  rw [Nat.mul_div_cancel _ (by omega)]
  exact Nat.min_self _

/-- A 1-share RSU grant vesting DAILY over the 48-day window
2024-01-01 → 2024-02-18, so `total_units = 49`. -/
def grant1share : Grant :=
  { num_shares := 1, iso_shares := 0, nqo_shares := 0, rsu_shares := 1,
    common_shares := 0, preferred_shares := 0, strike_price := none,
    purchase_price := none, grant_date := ⟨2024, 1, 1⟩,
    vesting_start := some ⟨2024, 1, 1⟩, vesting_end := some ⟨2024, 2, 18⟩,
    vesting_frequency := Freq.daily, cliff_months := 0 }

/-- Claim C3 (code bug): on the failing input — the 1-share DAILY grant over
2024-01-01 → 2024-02-18, queried at `vesting_end` — the unit counts are
`total_units = elapsed_units = 49`, and the intended value is
`floor(1 * 49 / 49) = 1 = num_shares`, proved here for the exact-arithmetic
model.  The program instead evaluates `per_unit = 1 / 49` in IEEE doubles and
`int(49 * (1 / 49)) = int(0.9999999999999999) = 0`, so
`vested_shares(vesting_end)` returns 0 there, violating the claimed exact full
vesting at term. -/
theorem c3_full_vesting_float_bug :
    units_between ⟨2024, 1, 1⟩ ⟨2024, 2, 18⟩ Freq.daily = 49 ∧
    units_between ⟨2024, 1, 1⟩
      (Date.min ⟨2024, 2, 18⟩ ⟨2024, 2, 18⟩) Freq.daily = 49 ∧
    vested_shares grant1share ⟨2024, 2, 18⟩ = 1 := by
  decide

/-- The §8 scenario grant: 1200 shares, 2024-01-01 → 2026-01-01, MONTHLY. -/
def scenario1200 : Grant :=
  { num_shares := 1200, iso_shares := 1200, nqo_shares := 0, rsu_shares := 0,
    common_shares := 0, preferred_shares := 0, strike_price := some 1,
    purchase_price := none, grant_date := ⟨2024, 1, 1⟩,
    vesting_start := some ⟨2024, 1, 1⟩, vesting_end := some ⟨2026, 1, 1⟩,
    vesting_frequency := Freq.monthly, cliff_months := 0 }

/-- Counterexample to claim C4: on the §8 scenario grant the code computes
`total_units = 25` (inclusive `+1` counting), not 24, and
`vested_shares(2025-01-01) = 624`, not 600. -/
theorem c4_counterexample :
    vested_shares scenario1200 ⟨2025, 1, 1⟩ ≠ 600 ∧
    units_between ⟨2024, 1, 1⟩ ⟨2026, 1, 1⟩ Freq.monthly ≠ 24 := by
  decide

/-- Claim C4 (amended): on the scenario grant the inclusive unit counting of
`_units_between` yields `total_units = 25` and `elapsed_units = 13` at
2025-01-01, so `vested_shares` there is `floor(1200 * 13 / 25) = 624`. -/
theorem c4_scenario_units :
    units_between ⟨2024, 1, 1⟩ ⟨2026, 1, 1⟩ Freq.monthly = 25 ∧
    units_between ⟨2024, 1, 1⟩ (Date.min ⟨2025, 1, 1⟩ ⟨2026, 1, 1⟩) Freq.monthly = 13 ∧
    vested_shares scenario1200 ⟨2025, 1, 1⟩ = 624 := by
  decide

/-- `alloc_for_period(total, i, n)` from `vesting_schedule_breakdown`:
`int(total * i / n) - int(total * (i - 1) / n)`, the cumulative-difference
allocation (floor division; the subtraction is Python int subtraction). -/
def alloc_for_period (total i n : Nat) : Int :=
  ((total * i / n : Nat) : Int) - ((total * (i - 1) / n : Nat) : Int)

/-- One period entry of `vesting_schedule_breakdown`. -/
structure SchedEntry where
  date : Date
  iso : Int
  nqo : Int
  rsu : Int
  common : Int
  preferred : Int
  total_vested : Int
deriving DecidableEq, Repr

/-- The period count chosen by `vesting_schedule_breakdown` for the window from
the cliff-adjusted start to the end: daily fallback for spans under 31 days,
otherwise the declared frequency. -/
def breakdown_units (start e : Date) (freq : Freq) : Nat :=
  if (ordinalN e - ordinalN start) < 31 ∨ freq = Freq.daily then
    max (ordinalN e - ordinalN start) 1
  else match freq with
    | .weekly => max ((ordinalN e - ordinalN start) / 7) 1
    | .biweekly => max ((ordinalN e - ordinalN start) / 14) 1
    | .yearly => max (wholeMonths start e / 12) 1
    | _ => max (wholeMonths start e) 1

/-- `start + step * i` for period `i` of `vesting_schedule_breakdown`, before
clamping: a day step under the daily fallback, else the declared frequency's
step. -/
def breakdown_step (start e : Date) (freq : Freq) (i : Nat) : Date :=
  if (ordinalN e - ordinalN start) < 31 ∨ freq = Freq.daily then addDays start i
  else match freq with
    | .weekly => addDays start (7 * i)
    | .biweekly => addDays start (14 * i)
    | .yearly => addMonths start (12 * i)
    | _ => addMonths start i

/-- The date of period `i` in `vesting_schedule_breakdown`: `start + step * i`,
clamped to the end date (`if d > end: d = end`). -/
def breakdown_date (start e : Date) (freq : Freq) (i : Nat) : Date :=
  if Date.lt e (breakdown_step start e freq i) then e
  else breakdown_step start e freq i

/-- `EquityGrant.vesting_schedule_breakdown()`.  `grant_date` is non-null in
the model, so the preferred branch's `grant_date or vesting_start or
vesting_end` date is `grant_date`. -/
def vesting_schedule_breakdown (g : Grant) : List SchedEntry :=
  if 0 < g.preferred_shares then
    [⟨g.grant_date, 0, 0, 0, 0, (g.preferred_shares : Int), (g.preferred_shares : Int)⟩]
  else match g.vesting_start, g.vesting_end with
    | some vs, some ve =>
      if Date.le ve (addMonths vs g.cliff_months) then
        [⟨ve, (g.iso_shares : Int), (g.nqo_shares : Int), (g.rsu_shares : Int),
          (g.common_shares : Int), 0,
          (g.iso_shares : Int) + (g.nqo_shares : Int) + (g.rsu_shares : Int) +
            (g.common_shares : Int)⟩]
      else
        (List.range (breakdown_units (addMonths vs g.cliff_months) ve
            g.vesting_frequency)).map fun j =>
          let n := breakdown_units (addMonths vs g.cliff_months) ve g.vesting_frequency
          let isoP := alloc_for_period g.iso_shares (j + 1) n
          let nqoP := alloc_for_period g.nqo_shares (j + 1) n
          let rsuP := alloc_for_period g.rsu_shares (j + 1) n
          let commP := alloc_for_period g.common_shares (j + 1) n
          ⟨breakdown_date (addMonths vs g.cliff_months) ve g.vesting_frequency (j + 1),
            isoP, nqoP, rsuP, commP, 0, isoP + nqoP + rsuP + commP⟩
    | _, _ => []

theorem alloc_for_period_nonneg (total i n : Nat) : 0 ≤ alloc_for_period total i n := by
  unfold alloc_for_period
  have h : total * (i - 1) / n ≤ total * i / n :=
    Nat.div_le_div_right (Nat.mul_le_mul_left _ (by omega))
  omega

theorem telescope_sum (f : Nat → Int) (m : Nat) :
    ((List.range m).map fun j => f (j + 1) - f j).sum = f m - f 0 := by
  induction m with
  | zero => simp
  | succ k ih =>
    rw [List.range_succ, List.map_append, List.sum_append, ih]
    simp only [List.map_cons, List.map_nil, List.sum_cons, List.sum_nil]
    omega

theorem alloc_for_period_sum (t n : Nat) (hn : n ≠ 0) :
    ((List.range n).map fun j => alloc_for_period t (j + 1) n).sum = (t : Int) := by
  have hfun : (fun j => alloc_for_period t (j + 1) n) =
      fun j => ((t * (j + 1) / n : Nat) : Int) - ((t * j / n : Nat) : Int) := by
    funext j
    unfold alloc_for_period
    simp
  rw [hfun, telescope_sum (fun j => ((t * j / n : Nat) : Int)) n]
  rw [Nat.mul_div_cancel _ (by omega : 0 < n)]
  simp

theorem one_le_breakdown_units (start e : Date) (freq : Freq) :
    1 ≤ breakdown_units start e freq := by
  unfold breakdown_units
  split
  · omega
  · cases freq <;> dsimp only <;> omega

theorem breakdown_date_le (start e : Date) (freq : Freq) (i : Nat) :
    Date.le (breakdown_date start e freq i) e := by
  unfold breakdown_date
  split
  · exact Date.le_refl e
  · exact Date.not_lt.mp (by assumption)

/-- Claim C1: for every grant with both vesting dates and no preferred shares,
each bucket's incremental shares over the whole breakdown sum to the bucket's
grant-level total exactly, and every increment is non-negative. -/
theorem c1_breakdown_bucket_sums (g : Grant) (vs ve : Date)
    (hvs : g.vesting_start = some vs) (hve : g.vesting_end = some ve)
    (hp : g.preferred_shares = 0) :
    ((vesting_schedule_breakdown g).map SchedEntry.iso).sum = (g.iso_shares : Int) ∧
    ((vesting_schedule_breakdown g).map SchedEntry.nqo).sum = (g.nqo_shares : Int) ∧
    ((vesting_schedule_breakdown g).map SchedEntry.rsu).sum = (g.rsu_shares : Int) ∧
    ((vesting_schedule_breakdown g).map SchedEntry.common).sum = (g.common_shares : Int) ∧
    ∀ p ∈ vesting_schedule_breakdown g,
      0 ≤ p.iso ∧ 0 ≤ p.nqo ∧ 0 ≤ p.rsu ∧ 0 ≤ p.common := by
  unfold vesting_schedule_breakdown
  rw [if_neg (by omega), hvs, hve]
  dsimp only
  by_cases hcl : Date.le ve (addMonths vs g.cliff_months)
  · rw [if_pos hcl]
    refine ⟨by simp, by simp, by simp, by simp, ?_⟩
    intro p hp2
    rw [List.mem_singleton] at hp2
    subst hp2
    exact ⟨Int.natCast_nonneg _, Int.natCast_nonneg _, Int.natCast_nonneg _,
      Int.natCast_nonneg _⟩
  · rw [if_neg hcl]
    have hn : breakdown_units (addMonths vs g.cliff_months) ve g.vesting_frequency ≠ 0 := by
      have := one_le_breakdown_units (addMonths vs g.cliff_months) ve g.vesting_frequency
      omega
    refine ⟨?_, ?_, ?_, ?_, ?_⟩
    · rw [List.map_map]
      exact alloc_for_period_sum _ _ hn
    · rw [List.map_map]
      exact alloc_for_period_sum _ _ hn
    · rw [List.map_map]
      exact alloc_for_period_sum _ _ hn
    · rw [List.map_map]
      exact alloc_for_period_sum _ _ hn
    · intro p hp2
      rw [List.mem_map] at hp2
      obtain ⟨j, hj, rfl⟩ := hp2
      exact ⟨alloc_for_period_nonneg _ _ _, alloc_for_period_nonneg _ _ _,
        alloc_for_period_nonneg _ _ _, alloc_for_period_nonneg _ _ _⟩

/-- A 100-RSU grant over three monthly periods (the spec's 33/33/34 example). -/
def grant100rsu : Grant :=
  { num_shares := 100, iso_shares := 0, nqo_shares := 0, rsu_shares := 100,
    common_shares := 0, preferred_shares := 0, strike_price := none,
    purchase_price := none, grant_date := ⟨2024, 1, 1⟩,
    vesting_start := some ⟨2024, 1, 1⟩, vesting_end := some ⟨2024, 4, 1⟩,
    vesting_frequency := Freq.monthly, cliff_months := 0 }

/-- Witness for C1: the 100-share / 3-period grant reconstructs its totals. -/
theorem c1_breakdown_bucket_sums_witness :
    ((vesting_schedule_breakdown grant100rsu).map SchedEntry.rsu).sum =
      (grant100rsu.rsu_shares : Int) ∧
    ((vesting_schedule_breakdown grant100rsu).map SchedEntry.rsu).sum = (100 : Int) ∧
    (vesting_schedule_breakdown grant100rsu).map SchedEntry.rsu = [33, 33, 34] :=
  ⟨(c1_breakdown_bucket_sums grant100rsu ⟨2024, 1, 1⟩ ⟨2024, 4, 1⟩ rfl rfl rfl).2.2.1,
    by decide, by decide⟩

/-- Claim C10: for a non-preferred grant with both dates whose cliff-adjusted
start is strictly before `vesting_end`, the breakdown has one entry per unit
(at least one), and every entry date is clamped to at most `vesting_end`. -/
theorem c10_breakdown_shape (g : Grant) (vs ve : Date)
    (hvs : g.vesting_start = some vs) (hve : g.vesting_end = some ve)
    (hp : g.preferred_shares = 0)
    (hlt : Date.lt (addMonths vs g.cliff_months) ve) :
    (vesting_schedule_breakdown g).length =
      breakdown_units (addMonths vs g.cliff_months) ve g.vesting_frequency ∧
    1 ≤ (vesting_schedule_breakdown g).length ∧
    ∀ p ∈ vesting_schedule_breakdown g, Date.le p.date ve := by
  unfold vesting_schedule_breakdown
  rw [if_neg (by omega), hvs, hve]
  dsimp only
  rw [if_neg (Date.not_le.mpr hlt)]
  refine ⟨by rw [List.length_map, List.length_range], ?_, ?_⟩
  · rw [List.length_map, List.length_range]
    exact one_le_breakdown_units _ _ _
  · intro p hp2
    rw [List.mem_map] at hp2
    obtain ⟨j, hj, rfl⟩ := hp2
    exact breakdown_date_le _ _ _ _

/-- Witness for C10 on the 100-RSU / 3-month grant. -/
theorem c10_breakdown_shape_witness :
    (vesting_schedule_breakdown grant100rsu).length =
      breakdown_units (addMonths ⟨2024, 1, 1⟩ grant100rsu.cliff_months) ⟨2024, 4, 1⟩
        grant100rsu.vesting_frequency ∧
    1 ≤ (vesting_schedule_breakdown grant100rsu).length ∧
    ∀ p ∈ vesting_schedule_breakdown grant100rsu, Date.le p.date ⟨2024, 4, 1⟩ :=
  c10_breakdown_shape grant100rsu ⟨2024, 1, 1⟩ ⟨2024, 4, 1⟩ rfl rfl rfl (by decide)

/-- A 100-RSU grant over a 14-day window declared MONTHLY. -/
def grant14daysMonthly : Grant :=
  { num_shares := 100, iso_shares := 0, nqo_shares := 0, rsu_shares := 100,
    common_shares := 0, preferred_shares := 0, strike_price := none,
    purchase_price := none, grant_date := ⟨2024, 1, 1⟩,
    vesting_start := some ⟨2024, 1, 1⟩, vesting_end := some ⟨2024, 1, 15⟩,
    vesting_frequency := Freq.monthly, cliff_months := 0 }

/-- Counterexample to claim C6: on a 14-day window, `vested_shares` does NOT
fall back to daily units — it still uses the declared MONTHLY frequency
(1 total unit, fully vested mid-window), while the same grant declared DAILY
vests only 53 of 100 shares at the same as-of date. -/
theorem c6_counterexample :
    ordinalN ⟨2024, 1, 15⟩ - ordinalN ⟨2024, 1, 1⟩ < 31 ∧
    vested_shares grant14daysMonthly ⟨2024, 1, 8⟩ = 100 ∧
    vested_shares { grant14daysMonthly with vesting_frequency := Freq.daily }
      ⟨2024, 1, 8⟩ = 53 ∧
    vested_shares grant14daysMonthly ⟨2024, 1, 8⟩ ≠
      vested_shares { grant14daysMonthly with vesting_frequency := Freq.daily }
        ⟨2024, 1, 8⟩ := by
  decide

/-- Claim C6 (amended): the sub-31-day daily fallback exists only in
`vesting_schedule_breakdown`: there the schedule is independent of the declared
frequency and has at least one entry, while `vested_shares`/`_units_between`
applies no such fallback (see the counterexample). -/
theorem c6_breakdown_daily_fallback (g : Grant) (vs ve : Date)
    (hvs : g.vesting_start = some vs) (hve : g.vesting_end = some ve)
    (hp : g.preferred_shares = 0)
    (hshort : ordinalN ve - ordinalN (addMonths vs g.cliff_months) < 31)
    (f f' : Freq) :
    vesting_schedule_breakdown { g with vesting_frequency := f } =
      vesting_schedule_breakdown { g with vesting_frequency := f' } ∧
    1 ≤ (vesting_schedule_breakdown g).length := by
  constructor
  · unfold vesting_schedule_breakdown
    dsimp only
    rw [hvs, hve]
    rw [if_neg (by omega), if_neg (by omega)]
    dsimp only
    by_cases hcl : Date.le ve (addMonths vs g.cliff_months)
    · rw [if_pos hcl, if_pos hcl]
    · rw [if_neg hcl, if_neg hcl]
      have hu : ∀ fr : Freq, breakdown_units (addMonths vs g.cliff_months) ve fr =
          max (ordinalN ve - ordinalN (addMonths vs g.cliff_months)) 1 := by
        intro fr
        unfold breakdown_units
        rw [if_pos (Or.inl hshort)]
      have hd : ∀ (fr : Freq) (i : Nat),
          breakdown_date (addMonths vs g.cliff_months) ve fr i =
          breakdown_date (addMonths vs g.cliff_months) ve Freq.daily i := by
        intro fr i
        unfold breakdown_date breakdown_step
        rw [if_pos (Or.inl hshort), if_pos (Or.inl hshort)]
      rw [hu f, hu f']
      apply List.map_congr_left
      intro j _
      rw [hd f, hd f']
  · unfold vesting_schedule_breakdown
    rw [if_neg (by omega), hvs, hve]
    dsimp only
    by_cases hcl : Date.le ve (addMonths vs g.cliff_months)
    · rw [if_pos hcl]
      exact Nat.le_refl _
    · rw [if_neg hcl]
      rw [List.length_map, List.length_range]
      exact one_le_breakdown_units _ _ _

/-- Witness for the amended C6 on the 14-day MONTHLY grant: its breakdown
coincides with the WEEKLY one. -/
theorem c6_breakdown_daily_fallback_witness :
    vesting_schedule_breakdown
        { grant14daysMonthly with vesting_frequency := Freq.monthly } =
      vesting_schedule_breakdown
        { grant14daysMonthly with vesting_frequency := Freq.weekly } ∧
    1 ≤ (vesting_schedule_breakdown grant14daysMonthly).length :=
  c6_breakdown_daily_fallback grant14daysMonthly ⟨2024, 1, 1⟩ ⟨2024, 1, 15⟩
    rfl rfl rfl (by decide) Freq.monthly Freq.weekly

/-- The window test of `EmployeeGrantDetailSerializer._units_elapsed`:
`g.vesting_end and (g.vesting_end - g.vesting_start).days < 31`. -/
def serializer_short_window (g : Grant) : Bool :=
  match g.vesting_start, g.vesting_end with
  | some vs, some ve => decide ((ordinalN ve : Int) - (ordinalN vs : Int) < 31)
  | _, _ => false

/-- `relativedelta(b, a)` whole months clamped below at zero, the value of
Python `max(rd.years * 12 + rd.months, 0)`: `dateutil` yields a nonpositive
month count whenever `b < a`, which the `max` sends to 0. -/
def relWholeMonthsClamped (a b : Date) : Nat :=
  if Date.lt b a then 0 else wholeMonths a b

/-- `EmployeeGrantDetailSerializer._units_elapsed(g, today)`: elapsed units from
the cliff-adjusted start `vesting_start + cliff_months` to
`min(today, vesting_end or today)`, 0 before the cliff-adjusted start.
`days_elapsed` is an `Int` and Python floor division `//` is `Int.fdiv`;
`max(x, 0)` on an `Int` is `Int.toNat`. -/
def serializer_units_elapsed (g : Grant) (today : Date) : Nat :=
  match g.vesting_start with
  | none => 0
  | some vs =>
    if Date.lt today (addMonths vs g.cliff_months) then 0
    else if serializer_short_window g = true ∨ g.vesting_frequency = Freq.daily then
      ((ordinalN (Date.min today (g.vesting_end.getD today)) : Int) -
        (ordinalN (addMonths vs g.cliff_months) : Int)).toNat
    else match g.vesting_frequency with
      | .weekly =>
        (Int.fdiv ((ordinalN (Date.min today (g.vesting_end.getD today)) : Int) -
          (ordinalN (addMonths vs g.cliff_months) : Int)) 7).toNat
      | .biweekly =>
        (Int.fdiv ((ordinalN (Date.min today (g.vesting_end.getD today)) : Int) -
          (ordinalN (addMonths vs g.cliff_months) : Int)) 14).toNat
      | .yearly =>
        relWholeMonthsClamped (addMonths vs g.cliff_months)
          (Date.min today (g.vesting_end.getD today)) / 12
      | _ =>
        relWholeMonthsClamped (addMonths vs g.cliff_months)
          (Date.min today (g.vesting_end.getD today))

/-- A 120-share grant with a recorded 6-month cliff, 2024-01-01 → 2025-01-01. -/
def grantCliff6 : Grant :=
  { num_shares := 120, iso_shares := 120, nqo_shares := 0, rsu_shares := 0,
    common_shares := 0, preferred_shares := 0, strike_price := some 1,
    purchase_price := none, grant_date := ⟨2024, 1, 1⟩,
    vesting_start := some ⟨2024, 1, 1⟩, vesting_end := some ⟨2025, 1, 1⟩,
    vesting_frequency := Freq.monthly, cliff_months := 6 }

/-- Counterexample to claim C7: at 2024-03-01, strictly before the
cliff-adjusted start 2024-07-01, the model's `vested_shares` counts elapsed
units from `vesting_start` (ignoring the cliff) and returns 27, not 0. -/
theorem c7_counterexample :
    Date.lt ⟨2024, 3, 1⟩ (addMonths ⟨2024, 1, 1⟩ grantCliff6.cliff_months) ∧
    vested_shares grantCliff6 ⟨2024, 3, 1⟩ = 27 ∧
    vested_shares grantCliff6 ⟨2024, 3, 1⟩ ≠ 0 := by
  decide

/-- Claim C7 (amended): `vested_shares` is independent of `cliff_months`
(elapsed units are counted from `vesting_start`); the cliff-adjusted counting
with its zero-before-cliff rule lives in the serializer helper
`_units_elapsed`. -/
theorem c7_elapsed_cliff_handling (g : Grant) (vs : Date)
    (hvs : g.vesting_start = some vs) (today : Date) (c : Nat) :
    vested_shares { g with cliff_months := c } today = vested_shares g today ∧
    (Date.lt today (addMonths vs g.cliff_months) →
      serializer_units_elapsed g today = 0) := by
  constructor
  · rfl
  · intro h
    unfold serializer_units_elapsed
    rw [hvs]
    dsimp only
    rw [if_pos h]

/-- Witness for the amended C7 on the cliff-6 grant at 2024-03-01. -/
theorem c7_elapsed_cliff_handling_witness :
    vested_shares { grantCliff6 with cliff_months := 0 } ⟨2024, 3, 1⟩ =
      vested_shares grantCliff6 ⟨2024, 3, 1⟩ ∧
    serializer_units_elapsed grantCliff6 ⟨2024, 3, 1⟩ = 0 :=
  ⟨(c7_elapsed_cliff_handling grantCliff6 ⟨2024, 1, 1⟩ rfl ⟨2024, 3, 1⟩ 0).1,
    (c7_elapsed_cliff_handling grantCliff6 ⟨2024, 1, 1⟩ rfl ⟨2024, 3, 1⟩ 0).2 (by decide)⟩

/-- The error function `math.erf`, as the standard Gaussian integral. -/
noncomputable def erf (x : ℝ) : ℝ :=
  (2 / Real.sqrt Real.pi) * ∫ t in (0 : ℝ)..x, Real.exp (-(t ^ 2))

/-- `_normal_cdf(x) = (1.0 + math.erf(x / math.sqrt(2.0))) / 2.0`. -/
noncomputable def normal_cdf (x : ℝ) : ℝ :=
  (1 + erf (x / Real.sqrt 2)) / 2

/-- `bs_call_price(S, K, T, r, sigma)` from `equity/serializers.py`, with its
ordered degenerate guards and the standard Black-Scholes formula otherwise. -/
noncomputable def bs_call_price (S K T r sigma : ℝ) : ℝ :=
  if S ≤ 0 then 0
  else if K ≤ 0 then S
  else if T ≤ 0 then max 0 (S - K)
  else if sigma ≤ 0 then max 0 (S - K * Real.exp (-r * T))
  else
    S * normal_cdf ((Real.log (S / K) + (r + 0.5 * sigma ^ 2) * T) /
        (sigma * Real.sqrt T)) -
      K * Real.exp (-r * T) *
        normal_cdf ((Real.log (S / K) + (r + 0.5 * sigma ^ 2) * T) /
            (sigma * Real.sqrt T) - sigma * Real.sqrt T)

/-- Claim C5: the pricer's guards evaluate in order — S ≤ 0 first, then K ≤ 0,
then T ≤ 0, then sigma ≤ 0 — with the stated return values, and the log /
division branch is reached only with S, K, T, sigma all positive (the function
is total: no exception paths). -/
theorem c5_bs_call_price_guards (S K T r sigma : ℝ) :
    (S ≤ 0 → bs_call_price S K T r sigma = 0) ∧
    (0 < S → K ≤ 0 → bs_call_price S K T r sigma = S) ∧
    (0 < S → 0 < K → T ≤ 0 → bs_call_price S K T r sigma = max 0 (S - K)) ∧
    (0 < S → 0 < K → 0 < T → sigma ≤ 0 →
      bs_call_price S K T r sigma = max 0 (S - K * Real.exp (-r * T))) ∧
    (0 < S → 0 < K → 0 < T → 0 < sigma →
      bs_call_price S K T r sigma =
        S * normal_cdf ((Real.log (S / K) + (r + 0.5 * sigma ^ 2) * T) /
            (sigma * Real.sqrt T)) -
          K * Real.exp (-r * T) *
            normal_cdf ((Real.log (S / K) + (r + 0.5 * sigma ^ 2) * T) /
                (sigma * Real.sqrt T) - sigma * Real.sqrt T)) := by
  refine ⟨?_, ?_, ?_, ?_, ?_⟩
  · intro h
    unfold bs_call_price
    rw [if_pos h]
  · intro hS hK
    unfold bs_call_price
    rw [if_neg (not_le.mpr hS), if_pos hK]
  · intro hS hK hT
    unfold bs_call_price
    rw [if_neg (not_le.mpr hS), if_neg (not_le.mpr hK), if_pos hT]
  · intro hS hK hT hsig
    unfold bs_call_price
    rw [if_neg (not_le.mpr hS), if_neg (not_le.mpr hK), if_neg (not_le.mpr hT),
      if_pos hsig]
  · intro hS hK hT hsig
    unfold bs_call_price
    rw [if_neg (not_le.mpr hS), if_neg (not_le.mpr hK), if_neg (not_le.mpr hT),
      if_neg (not_le.mpr hsig)]

/-- Witness for C5: the spec's degenerate test values
`bs_call_price(0, K, T, r, sigma) = 0` and `bs_call_price(100, 0, 1, 0.05, 0.2) = 100`. -/
theorem c5_bs_call_price_guards_witness :
    bs_call_price 0 100 1 (5 / 100) (2 / 10) = 0 ∧
    bs_call_price 100 0 1 (5 / 100) (2 / 10) = 100 :=
  ⟨(c5_bs_call_price_guards 0 100 1 (5 / 100) (2 / 10)).1 (le_refl 0),
    (c5_bs_call_price_guards 100 0 1 (5 / 100) (2 / 10)).2.1 (by norm_num) (le_refl 0)⟩

/-- `_first_of_month` reduced to a comparable key: for valid dates, comparing
first-of-month dates is comparing `year * 12 + month`. -/
def month_key (d : Date) : Nat := d.year * 12 + d.month

/-- `float(grant.strike_price or 0.0)`. -/
noncomputable def strike_float (g : Grant) : ℝ := ((g.strike_price.getD 0 : ℚ) : ℝ)

/-- The per-option Black-Scholes value of `GrantMonthlyExpensesView.get` /
`CompanyMonthlyExpensesView.allocate_grant`: computed only when the grant has
options and `share_price`, `strike`, `sigma` are positive, else 0.
`T = max((vesting_end or today) - today).days, 0) / 365.0`. -/
noncomputable def option_per_unit (g : Grant) (S r sigma : ℝ) (today : Date) : ℝ :=
  if 0 < g.iso_shares + g.nqo_shares ∧ 0 < S ∧ 0 < strike_float g ∧ 0 < sigma then
    bs_call_price S (strike_float g)
      ((((ordinalN (g.vesting_end.getD today) : Int) - (ordinalN today : Int)).toNat : ℝ)
        / 365)
      r sigma
  else 0

/-- `rsu_price = share_price if share_price > 0 else 0.0`. -/
noncomputable def rsu_per_unit (S : ℝ) : ℝ := if 0 < S then S else 0

/-- `stock_diff = share_price - purchase_price`, where a missing
`purchase_price` defaults to `share_price` (so the difference is 0). -/
noncomputable def stock_diff (g : Grant) (S : ℝ) : ℝ :=
  S - (match g.purchase_price with | some p => (p : ℝ) | none => S)

/-- The per-period expense amount of the schedule-driven allocation loop:
option shares at the Black-Scholes per-option value, RSUs at FMV, and
common/preferred at `share_price - purchase_price`. -/
noncomputable def period_amount (optionPer rsuPer stockDiff : ℝ) (p : SchedEntry) : ℝ :=
  (if p.iso + p.nqo ≠ 0 then ((p.iso + p.nqo : Int) : ℝ) * optionPer else 0) +
  (if p.rsu ≠ 0 then ((p.rsu : Int) : ℝ) * rsuPer else 0) +
  (if p.common ≠ 0 ∨ p.preferred ≠ 0 then
    ((p.common + p.preferred : Int) : ℝ) * stockDiff else 0)

/-- `total_value` of the schedule path in `GrantMonthlyExpensesView.get` (and
`total_for_grant` in `CompanyMonthlyExpensesView.allocate_grant`): the sum of
per-period amounts over schedule entries whose month is ≥ the current month. -/
noncomputable def grant_schedule_expense_total (g : Grant) (S r sigma : ℝ)
    (today : Date) : ℝ :=
  (((vesting_schedule_breakdown g).filter
      (fun p => decide (month_key today ≤ month_key p.date))).map
    (period_amount (option_per_unit g S r sigma today) (rsu_per_unit S)
      (stock_diff g S))).sum

theorem list_sum_map_add3 {α : Type} (l : List α) (f g h : α → ℝ) :
    (l.map fun p => f p + g p + h p).sum =
      (l.map f).sum + (l.map g).sum + (l.map h).sum := by
  induction l with
  | nil => simp
  | cons a t ih =>
    simp only [List.map_cons, List.sum_cons, ih]
    ring

theorem list_sum_map_cast_mul {α : Type} (l : List α) (q : α → Int) (c : ℝ) :
    (l.map fun p => ((q p : Int) : ℝ) * c).sum = (((l.map q).sum : Int) : ℝ) * c := by
  induction l with
  | nil => simp
  | cons a t ih =>
    simp only [List.map_cons, List.sum_cons, ih]
    push_cast
    ring

theorem list_sum_map_add_int {α : Type} (l : List α) (f g : α → Int) :
    (l.map fun p => f p + g p).sum = (l.map f).sum + (l.map g).sum := by
  induction l with
  | nil => simp
  | cons a t ih =>
    simp only [List.map_cons, List.sum_cons, ih]
    ring

theorem period_amount_unfold (o ru sd : ℝ) (p : SchedEntry) :
    period_amount o ru sd p =
      ((p.iso + p.nqo : Int) : ℝ) * o + ((p.rsu : Int) : ℝ) * ru +
        ((p.common + p.preferred : Int) : ℝ) * sd := by
  unfold period_amount
  by_cases h1 : p.iso + p.nqo ≠ 0
  · rw [if_pos h1]
    by_cases h2 : p.rsu ≠ 0
    · rw [if_pos h2]
      by_cases h3 : p.common ≠ 0 ∨ p.preferred ≠ 0
      · rw [if_pos h3]
      · rw [if_neg h3]
        push_neg at h3
        rw [h3.1, h3.2]
        norm_num
    · rw [if_neg h2]
      push_neg at h2
      rw [h2]
      by_cases h3 : p.common ≠ 0 ∨ p.preferred ≠ 0
      · rw [if_pos h3]
        norm_num
      · rw [if_neg h3]
        push_neg at h3
        rw [h3.1, h3.2]
        norm_num
  · rw [if_neg h1]
    push_neg at h1
    rw [h1]
    by_cases h2 : p.rsu ≠ 0
    · rw [if_pos h2]
      by_cases h3 : p.common ≠ 0 ∨ p.preferred ≠ 0
      · rw [if_pos h3]
        norm_num
      · rw [if_neg h3]
        push_neg at h3
        rw [h3.1, h3.2]
        norm_num
    · rw [if_neg h2]
      push_neg at h2
      rw [h2]
      by_cases h3 : p.common ≠ 0 ∨ p.preferred ≠ 0
      · rw [if_pos h3]
        norm_num
      · rw [if_neg h3]
        push_neg at h3
        rw [h3.1, h3.2]
        norm_num

theorem breakdown_projection_sums (g : Grant) (vs ve : Date)
    (hvs : g.vesting_start = some vs) (hve : g.vesting_end = some ve)
    (hp : g.preferred_shares = 0) :
    ((vesting_schedule_breakdown g).map SchedEntry.iso).sum = (g.iso_shares : Int) ∧
    ((vesting_schedule_breakdown g).map SchedEntry.nqo).sum = (g.nqo_shares : Int) ∧
    ((vesting_schedule_breakdown g).map SchedEntry.rsu).sum = (g.rsu_shares : Int) ∧
    ((vesting_schedule_breakdown g).map SchedEntry.common).sum = (g.common_shares : Int) ∧
    ((vesting_schedule_breakdown g).map SchedEntry.preferred).sum = 0 := by
  unfold vesting_schedule_breakdown
  rw [if_neg (by omega), hvs, hve]
  dsimp only
  by_cases hcl : Date.le ve (addMonths vs g.cliff_months)
  · rw [if_pos hcl]
    exact ⟨by simp, by simp, by simp, by simp, by simp⟩
  · rw [if_neg hcl]
    have hn : breakdown_units (addMonths vs g.cliff_months) ve g.vesting_frequency ≠ 0 := by
      have := one_le_breakdown_units (addMonths vs g.cliff_months) ve g.vesting_frequency
      omega
    refine ⟨?_, ?_, ?_, ?_, ?_⟩
    · rw [List.map_map]
      exact alloc_for_period_sum _ _ hn
    · rw [List.map_map]
      exact alloc_for_period_sum _ _ hn
    · rw [List.map_map]
      exact alloc_for_period_sum _ _ hn
    · rw [List.map_map]
      exact alloc_for_period_sum _ _ hn
    · rw [List.map_map]
      apply List.sum_eq_zero
      intro x hx
      rw [List.mem_map] at hx
      obtain ⟨j, _, rfl⟩ := hx
      rfl

/-- Claim C8 (amended): over the schedule path, with every schedule month
inside the reporting window, the grant's total expense is
`BS_per_option × (iso+nqo) + FMV × rsu + (FMV − purchase_price) × (common+preferred)`
— common and preferred shares are priced at the FMV-minus-purchase-price
difference, not at FMV.  This covers preferred grants too, whose schedule is
the single immediate-vest entry: there the bucket-exclusivity invariant (one
non-zero bucket, enforced at creation) zeroes the other buckets; non-preferred
grants need both vesting dates to produce a schedule. -/
theorem c8_schedule_expense_closed_form (g : Grant) (vs ve : Date)
    (hexcl : 0 < g.preferred_shares → g.iso_shares = 0 ∧ g.nqo_shares = 0 ∧
      g.rsu_shares = 0 ∧ g.common_shares = 0)
    (hdates : g.preferred_shares = 0 →
      g.vesting_start = some vs ∧ g.vesting_end = some ve)
    (S r sigma : ℝ) (today : Date)
    (hwin : ∀ p ∈ vesting_schedule_breakdown g, month_key today ≤ month_key p.date) :
    grant_schedule_expense_total g S r sigma today =
      option_per_unit g S r sigma today * ((g.iso_shares : ℝ) + (g.nqo_shares : ℝ)) +
      rsu_per_unit S * (g.rsu_shares : ℝ) +
      stock_diff g S * ((g.common_shares : ℝ) + (g.preferred_shares : ℝ)) := by
  by_cases hp : 0 < g.preferred_shares
  · have hsched : vesting_schedule_breakdown g =
        [⟨g.grant_date, 0, 0, 0, 0, (g.preferred_shares : Int),
          (g.preferred_shares : Int)⟩] := by
      unfold vesting_schedule_breakdown
      rw [if_pos hp]
    unfold grant_schedule_expense_total
    rw [hsched]
    have hcond : month_key today ≤
        month_key (⟨g.grant_date, 0, 0, 0, 0, (g.preferred_shares : Int),
          (g.preferred_shares : Int)⟩ : SchedEntry).date := by
      apply hwin
      rw [hsched]
      exact List.mem_singleton_self _
    rw [List.filter_eq_self.mpr (fun a ha => by
      rw [List.mem_singleton] at ha
      subst ha
      exact decide_eq_true hcond)]
    simp only [List.map_cons, List.map_nil, List.sum_cons, List.sum_nil]
    rw [period_amount_unfold]
    obtain ⟨hi, hn, hr, hc⟩ := hexcl hp
    rw [hi, hn, hr, hc]
    dsimp only
    push_cast
    ring
  · have hp0 : g.preferred_shares = 0 := by omega
    obtain ⟨hvs, hve⟩ := hdates hp0
    unfold grant_schedule_expense_total
    rw [List.filter_eq_self.mpr (fun p hp2 => decide_eq_true (hwin p hp2))]
    rw [List.map_congr_left (fun p _ => period_amount_unfold _ _ _ p)]
    rw [list_sum_map_add3]
    rw [list_sum_map_cast_mul (vesting_schedule_breakdown g) (fun p => p.iso + p.nqo),
      list_sum_map_cast_mul (vesting_schedule_breakdown g) (fun p => p.rsu),
      list_sum_map_cast_mul (vesting_schedule_breakdown g)
        (fun p => p.common + p.preferred)]
    rw [list_sum_map_add_int (vesting_schedule_breakdown g) SchedEntry.iso
        SchedEntry.nqo,
      list_sum_map_add_int (vesting_schedule_breakdown g) SchedEntry.common
        SchedEntry.preferred]
    obtain ⟨hiso, hnqo, hrsu, hcomm, hpref⟩ :=
      breakdown_projection_sums g vs ve hvs hve hp0
    rw [hiso, hnqo, hrsu, hcomm, hpref, hp0]
    push_cast
    ring

/-- A 5-common-share grant, purchase price 4, vesting 2024-01-01 → 2024-01-03. -/
def grantCommon5 : Grant :=
  { num_shares := 5, iso_shares := 0, nqo_shares := 0, rsu_shares := 0,
    common_shares := 5, preferred_shares := 0, strike_price := none,
    purchase_price := some 4, grant_date := ⟨2024, 1, 1⟩,
    vesting_start := some ⟨2024, 1, 1⟩, vesting_end := some ⟨2024, 1, 3⟩,
    vesting_frequency := Freq.monthly, cliff_months := 0 }

theorem grantCommon5_expense_total :
    grant_schedule_expense_total grantCommon5 10 0 0 ⟨2024, 1, 1⟩ = 30 := by
  have hfil : (vesting_schedule_breakdown grantCommon5).filter
      (fun p => decide (month_key ⟨2024, 1, 1⟩ ≤ month_key p.date)) =
      [⟨⟨2024, 1, 2⟩, 0, 0, 0, 2, 0, 2⟩, ⟨⟨2024, 1, 3⟩, 0, 0, 0, 3, 0, 3⟩] := by
    decide
  unfold grant_schedule_expense_total
  rw [hfil]
  simp only [List.map_cons, List.map_nil, List.sum_cons, List.sum_nil]
  rw [period_amount_unfold, period_amount_unfold]
  norm_num [option_per_unit, rsu_per_unit, stock_diff, strike_float, grantCommon5]

/-- Counterexample to claim C8: at FMV 10 the 5-common-share grant with
purchase price 4 accrues a total expense of 30 = (10 − 4) × 5, not the
claimed FMV × (common + preferred) = 50. -/
theorem c8_counterexample :
    grant_schedule_expense_total grantCommon5 10 0 0 ⟨2024, 1, 1⟩ = 30 ∧
    grant_schedule_expense_total grantCommon5 10 0 0 ⟨2024, 1, 1⟩ ≠
      bs_call_price 10 (strike_float grantCommon5) 1 0 0 *
          ((grantCommon5.iso_shares : ℝ) + (grantCommon5.nqo_shares : ℝ)) +
        10 * (grantCommon5.rsu_shares : ℝ) +
        10 * ((grantCommon5.common_shares : ℝ) + (grantCommon5.preferred_shares : ℝ)) := by
  refine ⟨grantCommon5_expense_total, ?_⟩
  rw [grantCommon5_expense_total]
  have hbs : bs_call_price 10 (strike_float grantCommon5) 1 0 0 = 10 := by
    unfold bs_call_price strike_float grantCommon5
    norm_num
  rw [hbs]
  norm_num [grantCommon5]

/-- A 5-preferred-share grant, purchase price 4, no vesting window: its
schedule is the single immediate-vest entry at `grant_date`. -/
def grantPref5 : Grant :=
  { num_shares := 5, iso_shares := 0, nqo_shares := 0, rsu_shares := 0,
    common_shares := 0, preferred_shares := 5, strike_price := none,
    purchase_price := some 4, grant_date := ⟨2024, 1, 15⟩,
    vesting_start := none, vesting_end := none,
    vesting_frequency := Freq.monthly, cliff_months := 0 }

/-- Witness for the amended C8 on the immediate-vest preferred grant: its
schedule-path total follows the same closed form, pricing the preferred
shares at `FMV − purchase_price`. -/
theorem c8_schedule_expense_closed_form_witness :
    grant_schedule_expense_total grantPref5 10 0 0 ⟨2024, 1, 1⟩ =
      option_per_unit grantPref5 10 0 0 ⟨2024, 1, 1⟩ *
          ((grantPref5.iso_shares : ℝ) + (grantPref5.nqo_shares : ℝ)) +
        rsu_per_unit 10 * (grantPref5.rsu_shares : ℝ) +
        stock_diff grantPref5 10 *
          ((grantPref5.common_shares : ℝ) + (grantPref5.preferred_shares : ℝ)) :=
  c8_schedule_expense_closed_form grantPref5 ⟨2024, 1, 15⟩ ⟨2024, 1, 15⟩
    (by decide) (by decide) 10 0 0 ⟨2024, 1, 1⟩ (by decide)

/-- `StockClass.share_type` values. -/
inductive ShareType where
  | common
  | preferred
deriving DecidableEq, Repr

/-- The stock-class context `EquityGrantSerializer.validate` reads on create:
the class's share type, its `total_class_shares`, and the aggregated
`num_shares` of its existing grants. -/
structure StockClassCtx where
  share_type : ShareType
  total_class_shares : Nat
  already_allocated : Nat
deriving DecidableEq, Repr

/-- The rejection cases of `EquityGrantSerializer.validate`;
`insufficientShares` carries the reported remaining headroom and the
requested share count. -/
inductive GrantValidationError where
  | isoNqoExclusive
  | bucketPartition
  | strikeRequired
  | strikeForbidden
  | purchaseRequired
  | purchaseForbidden
  | classTypeMismatch
  | vestingEndBeforeStart
  | insufficientShares (remaining requested : Nat)
deriving DecidableEq, Repr

/-- `sum(1 for b in buckets if b > 0)`. -/
def buckets_positive (g : Grant) : Nat :=
  (if 0 < g.iso_shares then 1 else 0) + (if 0 < g.nqo_shares then 1 else 0) +
  (if 0 < g.rsu_shares then 1 else 0) + (if 0 < g.common_shares then 1 else 0) +
  (if 0 < g.preferred_shares then 1 else 0)

/-- `vs and ve and ve < vs`. -/
def vesting_end_before_start (g : Grant) : Bool :=
  match g.vesting_start, g.vesting_end with
  | some vs, some ve => decide (Date.lt ve vs)
  | _, _ => false

/-- `EquityGrantSerializer.validate` on the create path (no instance), with its
checks in source order, ending at the stock-class allocation cap. -/
def validate_grant (g : Grant) (sc : StockClassCtx) : Except GrantValidationError Unit :=
  if 0 < g.iso_shares ∧ 0 < g.nqo_shares then .error .isoNqoExclusive
  else if buckets_positive g ≠ 1 ∨
      g.iso_shares + g.nqo_shares + g.rsu_shares + g.common_shares +
        g.preferred_shares ≠ g.num_shares then
    .error .bucketPartition
  else if (0 < g.iso_shares ∨ 0 < g.nqo_shares) ∧ g.strike_price.getD 0 ≤ 0 then
    .error .strikeRequired
  else if (0 < g.iso_shares ∨ 0 < g.nqo_shares) ∧ 0 < g.purchase_price.getD 0 then
    .error .purchaseForbidden
  else if 0 < g.rsu_shares ∧ 0 < g.strike_price.getD 0 then .error .strikeForbidden
  else if 0 < g.rsu_shares ∧ 0 < g.purchase_price.getD 0 then .error .purchaseForbidden
  else if 0 < g.common_shares ∧ g.purchase_price.getD 0 ≤ 0 then .error .purchaseRequired
  else if 0 < g.common_shares ∧ 0 < g.strike_price.getD 0 then .error .strikeForbidden
  else if 0 < g.preferred_shares ∧ g.purchase_price.getD 0 ≤ 0 then .error .purchaseRequired
  else if 0 < g.preferred_shares ∧ 0 < g.strike_price.getD 0 then .error .strikeForbidden
  else if 0 < g.preferred_shares ∧ sc.share_type ≠ ShareType.preferred then
    .error .classTypeMismatch
  else if (0 < g.iso_shares ∨ 0 < g.nqo_shares ∨ 0 < g.rsu_shares ∨
      0 < g.common_shares) ∧ sc.share_type ≠ ShareType.common then
    .error .classTypeMismatch
  else if vesting_end_before_start g = true then .error .vestingEndBeforeStart
  else if sc.total_class_shares < sc.already_allocated + g.num_shares then
    .error (.insufficientShares (sc.total_class_shares - sc.already_allocated)
      g.num_shares)
  else .ok ()

instance : DecidableEq (Except GrantValidationError Unit) := fun a b =>
  match a, b with
  | .ok (), .ok () => isTrue rfl
  | .ok (), .error _ => isFalse (fun h => Except.noConfusion h)
  | .error _, .ok () => isFalse (fun h => Except.noConfusion h)
  | .error e1, .error e2 =>
    match decEq e1 e2 with
    | isTrue h => isTrue (by rw [h])
    | isFalse h => isFalse (fun hh => h (by injection hh))

set_option maxHeartbeats 2000000 in
/-- Claim C9: a grant request whose `num_shares` exceeds the class's remaining
capacity is never accepted, and whenever the cap error is the one raised it
reports exactly `total_class_shares - already_allocated` as the remaining
headroom and the requested amount. -/
theorem c9_allocation_cap_enforced (g : Grant) (sc : StockClassCtx)
    (hover : sc.total_class_shares < sc.already_allocated + g.num_shares) :
    validate_grant g sc ≠ Except.ok () ∧
    (∀ rem req, validate_grant g sc =
        Except.error (GrantValidationError.insufficientShares rem req) →
      rem = sc.total_class_shares - sc.already_allocated ∧ req = g.num_shares) := by
  have key : validate_grant g sc =
      Except.error (GrantValidationError.insufficientShares
        (sc.total_class_shares - sc.already_allocated) g.num_shares) ∨
      (validate_grant g sc ≠ Except.ok () ∧
        ∀ rem req, validate_grant g sc ≠
          Except.error (GrantValidationError.insufficientShares rem req)) := by
    unfold validate_grant
    by_cases h1 : 0 < g.iso_shares ∧ 0 < g.nqo_shares
    · rw [if_pos h1]
      exact Or.inr ⟨fun h => Except.noConfusion h,
        fun rem req h => GrantValidationError.noConfusion (Except.error.inj h)⟩
    rw [if_neg h1]
    by_cases h2 : buckets_positive g ≠ 1 ∨
        g.iso_shares + g.nqo_shares + g.rsu_shares + g.common_shares +
          g.preferred_shares ≠ g.num_shares
    · rw [if_pos h2]
      exact Or.inr ⟨fun h => Except.noConfusion h,
        fun rem req h => GrantValidationError.noConfusion (Except.error.inj h)⟩
    rw [if_neg h2]
    by_cases h3 : (0 < g.iso_shares ∨ 0 < g.nqo_shares) ∧ g.strike_price.getD 0 ≤ 0
    · rw [if_pos h3]
      exact Or.inr ⟨fun h => Except.noConfusion h,
        fun rem req h => GrantValidationError.noConfusion (Except.error.inj h)⟩
    rw [if_neg h3]
    by_cases h4 : (0 < g.iso_shares ∨ 0 < g.nqo_shares) ∧ 0 < g.purchase_price.getD 0
    · rw [if_pos h4]
      exact Or.inr ⟨fun h => Except.noConfusion h,
        fun rem req h => GrantValidationError.noConfusion (Except.error.inj h)⟩
    rw [if_neg h4]
    by_cases h5 : 0 < g.rsu_shares ∧ 0 < g.strike_price.getD 0
    · rw [if_pos h5]
      exact Or.inr ⟨fun h => Except.noConfusion h,
        fun rem req h => GrantValidationError.noConfusion (Except.error.inj h)⟩
    rw [if_neg h5]
    by_cases h6 : 0 < g.rsu_shares ∧ 0 < g.purchase_price.getD 0
    · rw [if_pos h6]
      exact Or.inr ⟨fun h => Except.noConfusion h,
        fun rem req h => GrantValidationError.noConfusion (Except.error.inj h)⟩
    rw [if_neg h6]
    by_cases h7 : 0 < g.common_shares ∧ g.purchase_price.getD 0 ≤ 0
    · rw [if_pos h7]
      exact Or.inr ⟨fun h => Except.noConfusion h,
        fun rem req h => GrantValidationError.noConfusion (Except.error.inj h)⟩
    rw [if_neg h7]
    by_cases h8 : 0 < g.common_shares ∧ 0 < g.strike_price.getD 0
    · rw [if_pos h8]
      exact Or.inr ⟨fun h => Except.noConfusion h,
        fun rem req h => GrantValidationError.noConfusion (Except.error.inj h)⟩
    rw [if_neg h8]
    by_cases h9 : 0 < g.preferred_shares ∧ g.purchase_price.getD 0 ≤ 0
    · rw [if_pos h9]
      exact Or.inr ⟨fun h => Except.noConfusion h,
        fun rem req h => GrantValidationError.noConfusion (Except.error.inj h)⟩
    rw [if_neg h9]
    by_cases h10 : 0 < g.preferred_shares ∧ 0 < g.strike_price.getD 0
    · rw [if_pos h10]
      exact Or.inr ⟨fun h => Except.noConfusion h,
        fun rem req h => GrantValidationError.noConfusion (Except.error.inj h)⟩
    rw [if_neg h10]
    by_cases h11 : 0 < g.preferred_shares ∧ sc.share_type ≠ ShareType.preferred
    · rw [if_pos h11]
      exact Or.inr ⟨fun h => Except.noConfusion h,
        fun rem req h => GrantValidationError.noConfusion (Except.error.inj h)⟩
    rw [if_neg h11]
    by_cases h12 : (0 < g.iso_shares ∨ 0 < g.nqo_shares ∨ 0 < g.rsu_shares ∨
        0 < g.common_shares) ∧ sc.share_type ≠ ShareType.common
    · rw [if_pos h12]
      exact Or.inr ⟨fun h => Except.noConfusion h,
        fun rem req h => GrantValidationError.noConfusion (Except.error.inj h)⟩
    rw [if_neg h12]
    by_cases h13 : vesting_end_before_start g = true
    · rw [if_pos h13]
      exact Or.inr ⟨fun h => Except.noConfusion h,
        fun rem req h => GrantValidationError.noConfusion (Except.error.inj h)⟩
    rw [if_neg h13]
    rw [if_pos hover]
    exact Or.inl rfl
  rcases key with hk | ⟨hk1, hk2⟩
  · rw [hk]
    refine ⟨fun h => Except.noConfusion h, fun rem req heq => ?_⟩
    have h2 := Except.error.inj heq
    have h3 := GrantValidationError.insufficientShares.inj h2
    exact ⟨h3.1.symm, h3.2.symm⟩
  · exact ⟨hk1, fun rem req heq => absurd heq (hk2 rem req)⟩

/-- A 150-RSU grant request against a common stock class. -/
def request150 : Grant :=
  { num_shares := 150, iso_shares := 0, nqo_shares := 0, rsu_shares := 150,
    common_shares := 0, preferred_shares := 0, strike_price := none,
    purchase_price := none, grant_date := ⟨2024, 1, 1⟩,
    vesting_start := some ⟨2024, 1, 1⟩, vesting_end := some ⟨2025, 1, 1⟩,
    vesting_frequency := Freq.monthly, cliff_months := 0 }

/-- A common class with 1000 total shares, 900 already allocated. -/
def class1000 : StockClassCtx :=
  { share_type := ShareType.common, total_class_shares := 1000,
    already_allocated := 900 }

/-- Witness for C9: the spec's 1000/900/150 scenario is rejected with
remaining = 100 and requested = 150 reported in the error. -/
theorem c9_allocation_cap_enforced_witness :
    validate_grant request150 class1000 ≠ Except.ok () ∧
    validate_grant request150 class1000 =
      Except.error (GrantValidationError.insufficientShares 100 150) :=
  ⟨(c9_allocation_cap_enforced request150 class1000 (by decide)).1, by decide⟩
